import Mathlib

/-
Shallow embedding of the note-lifecycle / input-matching core of the
stave game (main script, `src/unnamed/part_000`).  JavaScript numbers are
modelled as ℤ where the source only ever holds integers (octaves, midi,
timestamps, scores, lives, spawn rates) and as ℚ where fractional values
occur (x positions, speeds).  `Date.now()` is passed in explicitly as a
`now : ℤ` argument.  External collaborators (canvas geometry, audio,
feedback text, lasers/explosions, Math.random note selection) are either
parameters or recorded as emitted events; they never influence the core
state transitions modelled here.
-/

namespace StaveGame

/-- The seven natural note letters (source: strings 'A'..'G'). -/
inductive Letter where
  | C | D | E | F | G | A | B
deriving DecidableEq, Repr

/-- A clef, as carried on notes and catalog entries ('treble' / 'bass'). -/
inductive Clef where
  | treble | bass
deriving DecidableEq, Repr

/-- The global clef mode (`currentClef` in the source): 'treble', 'bass',
'grand' or 'hardMode'. -/
inductive ClefMode where
  | treble | bass | grand | hardMode
deriving DecidableEq, Repr

/-- `isDualClefMode()` (line 288): grand staff or hard mode. -/
def isDualClefMode (m : ClefMode) : Bool :=
  decide (m = ClefMode.grand) || decide (m = ClefMode.hardMode)

/-- The per-letter semitone table `noteValues` of `scientificToMidi`
(line 99): { C:0, D:2, E:4, F:5, G:7, A:9, B:11 }. -/
def noteValues : Letter → ℤ
  | .C => 0 | .D => 2 | .E => 4 | .F => 5 | .G => 7 | .A => 9 | .B => 11

/-- `scientificToMidi(letter, octave)` (lines 98-101):
`(octave + 1) * 12 + noteValues[letter]`. -/
def scientificToMidi (letter : Letter) (octave : ℤ) : ℤ :=
  (octave + 1) * 12 + noteValues letter

/-- First character of each entry of the `noteNames` array of
`midiToScientific` (line 104): ['C','C#','D','D#','E','F','F#','G','G#',
'A','A#','B'], after `.charAt(0)`. -/
def noteNamesFirstLetter : List Letter :=
  [.C, .C, .D, .D, .E, .F, .F, .G, .G, .A, .A, .B]

/-- `midiToScientific(midi)` (lines 103-108): octave is
`Math.floor(midi/12) - 1` (floor division) and the letter is
`noteNames[midi % 12].charAt(0)` (JS `%` truncates toward zero; a negative
index would yield `undefined`, modelled as `none`). -/
def midiToScientific (midi : ℤ) : Option (Letter × ℤ) :=
  let octave := midi.fdiv 12 - 1
  let noteIndex := Int.tmod midi 12
  if 0 ≤ noteIndex then
    (noteNamesFirstLetter.get? noteIndex.toNat).map (fun l => (l, octave))
  else
    none

/-- The `letterOrder` array used by `getStaffLocalIndex`
(lines 114, 125): ['C','D','E','F','G','A','B']. -/
def letterOrder : List Letter :=
  [.C, .D, .E, .F, .G, .A, .B]

/-- `getStaffLocalIndex(letter, octave, clef)` (lines 110-135): diatonic
step count from the clef reference pitch (E4 treble, G2 bass), via
`letterOrder.indexOf`; `octaveDiff * 7 + letterDiff`. -/
def getStaffLocalIndex (letter : Letter) (octave : ℤ) (clef : Clef) : ℤ :=
  match clef with
  | .treble =>
      let noteIndex : ℤ := letterOrder.indexOf letter
      let e4Index : ℤ := letterOrder.indexOf Letter.E
      (octave - 4) * 7 + (noteIndex - e4Index)
  | .bass =>
      let noteIndex : ℤ := letterOrder.indexOf letter
      let g2Index : ℤ := letterOrder.indexOf Letter.G
      (octave - 2) * 7 + (noteIndex - g2Index)

/-! ### Note catalog (`buildNoteDefinitions`, lines 137-225) -/

/-- One catalog entry as pushed by `buildNoteDefinitions` (lines 165-175,
199-209).  The source stores the letter twice (`note` and `letter`) plus a
`scientific` display string; we keep a single `letter` field, and `line` is
the legacy copy of `staffLocalIndex`. -/
structure CatalogEntry where
  letter : Letter
  octave : ℤ
  midi : ℤ
  clef : Clef
  staffLocalIndex : ℤ
  line : ℤ
deriving DecidableEq, Repr

/-- Builds one catalog entry the way `buildNoteDefinitions` does. -/
def mkEntry (clef : Clef) (letter : Letter) (octave : ℤ) : CatalogEntry :=
  let staffLocalIndex := getStaffLocalIndex letter octave clef
  { letter := letter
    octave := octave
    midi := scientificToMidi letter octave
    clef := clef
    staffLocalIndex := staffLocalIndex
    line := staffLocalIndex }

/-- The `trebleNotes` pitch list (lines 145-161): A3 up to A5. -/
def trebleNoteList : List (Letter × ℤ) :=
  [(.A, 5), (.G, 5), (.F, 5), (.E, 5), (.D, 5), (.C, 5), (.B, 4), (.A, 4),
   (.G, 4), (.F, 4), (.E, 4), (.D, 4), (.C, 4), (.B, 3), (.A, 3)]

/-- The `bassNotes` pitch list (lines 179-195): C2 up to C4. -/
def bassNoteList : List (Letter × ℤ) :=
  [(.C, 4), (.B, 3), (.A, 3), (.G, 3), (.F, 3), (.E, 3), (.D, 3), (.C, 3),
   (.B, 2), (.A, 2), (.G, 2), (.F, 2), (.E, 2), (.D, 2), (.C, 2)]

/-- The `definitions` record returned by `buildNoteDefinitions`. -/
structure NoteDefinitions where
  treble : List CatalogEntry
  bass : List CatalogEntry
  grand : List CatalogEntry
  hardMode : List CatalogEntry
deriving DecidableEq, Repr

/-- `buildNoteDefinitions()` (lines 137-225): per-clef entries with
precomputed staff positions; `grand` and `hardMode` are both the
treble entries followed by the bass entries (lines 213-222). -/
def buildNoteDefinitions : NoteDefinitions :=
  let treble := trebleNoteList.map (fun p => mkEntry Clef.treble p.1 p.2)
  let bass := bassNoteList.map (fun p => mkEntry Clef.bass p.1 p.2)
  { treble := treble
    bass := bass
    grand := treble ++ bass
    hardMode := treble ++ bass }

/-- `const notePositions = buildNoteDefinitions()` (line 239). -/
def notePositions : NoteDefinitions := buildNoteDefinitions

/-- `notePositions[currentClef]` (line 1757): the catalog for the current
clef mode. -/
def catalogForMode (m : ClefMode) : List CatalogEntry :=
  match m with
  | .treble => notePositions.treble
  | .bass => notePositions.bass
  | .grand => notePositions.grand
  | .hardMode => notePositions.hardMode

/-- The ledger-line filter at the head of `pickRandomNote`
(lines 1769-1789).  When `maxLedgerLines === 0` only staff notes
(`staffLocalIndex` 0..8) survive; otherwise the range is
`-maxLedgerLines .. 8 + maxLedgerLines` (the source repeats the identical
bound for the dual-clef and single-clef branches). -/
def filterAvailableNotes (maxLedgerLines : ℤ) (arr : List CatalogEntry) :
    List CatalogEntry :=
  if maxLedgerLines = 0 then
    arr.filter (fun e => decide (0 ≤ e.staffLocalIndex) &&
      decide (e.staffLocalIndex ≤ 8))
  else
    arr.filter (fun e => decide (-maxLedgerLines ≤ e.staffLocalIndex) &&
      decide (e.staffLocalIndex ≤ 8 + maxLedgerLines))

/-- The empty-filter fallback of `pickRandomNote` (lines 1791-1794):
`if (availableNotes.length === 0) availableNotes = arr`. -/
def availableNotesWithFallback (maxLedgerLines : ℤ)
    (arr : List CatalogEntry) : List CatalogEntry :=
  let availableNotes := filterAvailableNotes maxLedgerLines arr
  if availableNotes = [] then arr else availableNotes

/-! ### Game state (module-level variables, lines 836-868, 271-303) -/

/-- A hand mode string of Piano Mode settings: 'none', 'melody' or
'chords'. -/
inductive HandMode where
  | none | melody | chords
deriving DecidableEq, Repr

/-- The Piano Mode settings consumed by the core (`pianoModeSettings`):
strict-octave matching, hard mode, and the per-hand modes. -/
structure PianoSettings where
  strictMode : Bool
  hardMode : Bool
  leftHand : HandMode
  rightHand : HandMode
deriving DecidableEq, Repr

/-- `previousNoteType` (line 303): 'chord' or 'melody'. -/
inductive NoteType where
  | chord | melody
deriving DecidableEq, Repr

/-- A moving note as created by `spawnNote` (lines 1335-1350, 1370-1383).
Single notes carry no `isChord`/`chordId` in the source (they are
`undefined`), modelled as `false` / `none`. -/
structure MovingNote where
  x : ℚ
  staffLocalIndex : ℤ
  letter : Letter
  octave : ℤ
  midi : ℤ
  clef : Clef
  speed : ℚ
  id : ℤ
  isChord : Bool
  chordId : Option ℤ
  line : ℤ
deriving DecidableEq, Repr

/-- One `chordProgress` entry (line 293):
`{ pressedNotes: Set, timestamps: Map, firstPressTime }`.  The JS `Set`
and `Map` are modelled as duplicate-free association lists preserving
insertion order. -/
structure ChordData where
  pressedNotes : List Letter
  timestamps : List (Letter × ℤ)
  firstPressTime : ℤ
deriving DecidableEq, Repr

/-- `chordWrongNoteWindow` (lines 296-300). -/
structure WrongNoteWindow where
  lastWrongNoteTime : ℤ
  windowDuration : ℤ
  hasCountedError : Bool
deriving DecidableEq, Repr

/-- The mutable core game state (module-level variables `score`, `lives`,
`level`, `correctAnswers`, `leftHandScore`, `rightHandScore`,
`movingNotes`, `chordProgress`, `chordWrongNoteWindow`,
`previousNoteType`, `lastNoteSpawn`, `noteSpawnRate`, `currentClef`,
`maxLedgerLines`, `pianoModeActive`, `pianoModeSettings`, `gameRunning`).
`pendingSpawn` models the `forceSpawnNote` / `setTimeout` side effect of
`forceSpawnNoteWithTransitionDelay`: `some d` records that a respawn was
requested with delay `d` ms; the spawn itself draws a `Math.random`
catalog note and is modelled separately by `spawnNote`. -/
structure GameState where
  gameRunning : Bool
  score : ℤ
  lives : ℤ
  notesDestroyed : ℤ
  level : ℤ
  correctAnswers : ℤ
  leftHandScore : ℤ
  rightHandScore : ℤ
  currentClef : ClefMode
  maxLedgerLines : ℤ
  movingNotes : List MovingNote
  chordProgress : List (Option ℤ × ChordData)
  chordWrongNoteWindow : WrongNoteWindow
  previousNoteType : NoteType
  pianoModeActive : Bool
  pianoModeSettings : PianoSettings
  lastNoteSpawn : ℤ
  noteSpawnRate : ℤ
  pendingSpawn : Option ℤ
deriving DecidableEq, Repr

/-- `chordProgress.get` (JS `Map.get`, first matching key). -/
def progLookup (ps : List (Option ℤ × ChordData)) (c : Option ℤ) :
    Option ChordData :=
  match ps with
  | [] => Option.none
  | (k, v) :: rest => if k = c then some v else progLookup rest c

/-- `chordProgress.set` (JS `Map.set`: update in place when the key
exists, append otherwise). -/
def progSet (ps : List (Option ℤ × ChordData)) (c : Option ℤ)
    (v : ChordData) : List (Option ℤ × ChordData) :=
  match ps with
  | [] => [(c, v)]
  | (k, w) :: rest =>
      if k = c then (k, v) :: rest else (k, w) :: progSet rest c v

/-- `chordProgress.delete` (JS `Map.delete`). -/
def progDelete (ps : List (Option ℤ × ChordData)) (c : Option ℤ) :
    List (Option ℤ × ChordData) :=
  ps.filter (fun kv => !(kv.1 = c))

/-! ### External render geometry

`currentTrebleStave` / `currentBassStave` and the canvas are populated by
the drawing code (out of core scope); the core reads `x`, `width` and
`clefX` from them.  They are passed to the core functions as an explicit
parameter here. -/

/-- The fields of a stave object the core reads. -/
structure StaveBox where
  x : ℚ
  width : ℚ
  clefX : ℚ
deriving DecidableEq, Repr

/-- The render geometry visible to the core: canvas width plus the two
optional stave boxes. -/
structure Geometry where
  canvasWidth : ℚ
  trebleStave : Option StaveBox
  bassStave : Option StaveBox
deriving DecidableEq, Repr

/-! ### Spawner (lines 1261-1439) -/

/-- `canSpawnNote(minDistance)` (lines 1261-1269): for both normal mode
and piano mode, only one note/chord at a time — false whenever any moving
note is active, regardless of mode or clef. -/
def canSpawnNote (g : GameState) (minDistance : ℤ) : Bool :=
  if g.movingNotes.length > 0 then false else true

/-- The level-to-speed chain inlined in `spawnNote` (lines 1287-1300) and
`respawnNote` (lines 1453-1466). -/
def baseSpeedForLevel (level : ℤ) : ℚ :=
  if level = 1 then 0.8
  else if level = 2 then 1.4
  else if level = 3 then 1.8
  else if level = 4 then 2.2
  else 2.2 + ((level : ℚ) - 4) * 0.4

/-- The level-to-spawn-interval chain of `spawnNote` (lines 1390-1402). -/
def spawnRateForLevel (level : ℤ) : ℤ :=
  if level = 1 then 2200
  else if level = 2 then 1600
  else if level = 3 then 1400
  else if level = 4 then 1200
  else max 800 (1200 - (level - 4) * 50)

/-- The result of `pickRandomNote()` (line 1285): a single catalog entry,
or an array of entries for chords.  The draw itself uses `Math.random`
and is treated as an external oracle. -/
inductive SpawnPick where
  | single (entry : CatalogEntry)
  | chord (entries : List CatalogEntry)
deriving DecidableEq, Repr

/-- Spawn x for a chord (lines 1309-1319): in dual-clef mode the treble
stave's right edge; in single mode the current clef's stave; canvas
width + 20 as fallback. -/
def chordSpawnX (geo : Geometry) (mode : ClefMode) : ℚ :=
  if isDualClefMode mode then
    match geo.trebleStave with
    | some s => s.x + s.width
    | Option.none => geo.canvasWidth + 20
  else if mode = ClefMode.treble then
    match geo.trebleStave with
    | some s => s.x + s.width
    | Option.none => geo.canvasWidth + 20
  else if mode = ClefMode.bass then
    match geo.bassStave with
    | some s => s.x + s.width
    | Option.none => geo.canvasWidth + 20
  else geo.canvasWidth + 20

/-- Spawn x for a single note (lines 1356-1368): in dual-clef mode keyed
by the note's own clef, otherwise by the current clef. -/
def singleSpawnX (geo : Geometry) (mode : ClefMode) (noteClef : Clef) :
    ℚ :=
  if isDualClefMode mode then
    match noteClef with
    | .treble =>
        match geo.trebleStave with
        | some s => s.x + s.width
        | Option.none => geo.canvasWidth + 20
    | .bass =>
        match geo.bassStave with
        | some s => s.x + s.width
        | Option.none => geo.canvasWidth + 20
  else if mode = ClefMode.treble then
    match geo.trebleStave with
    | some s => s.x + s.width
    | Option.none => geo.canvasWidth + 20
  else if mode = ClefMode.bass then
    match geo.bassStave with
    | some s => s.x + s.width
    | Option.none => geo.canvasWidth + 20
  else geo.canvasWidth + 20

/-- The adjacent-note x displacement of chord spawning (lines 1324-1333):
notes one staff position from their predecessor alternate ±8. -/
def chordOffset (noteData : List CatalogEntry) (index : ℕ) : ℚ :=
  if index = 0 then 0
  else
    match noteData.get? index, noteData.get? (index - 1) with
    | some cur, some prev =>
        if (cur.staffLocalIndex - prev.staffLocalIndex).natAbs = 1 then
          if index % 2 = 0 then -8 else 8
        else 0
    | _, _ => 0

/-- The moving notes pushed for one chord (lines 1323-1352): common
`chordId = Date.now()`, ids `now + index`, shared base x and speed. -/
def mkChordMovingNotes (noteData : List CatalogEntry) (baseX : ℚ)
    (now : ℤ) (baseSpeed : ℚ) : List MovingNote :=
  noteData.enum.map (fun p =>
    { x := baseX + chordOffset noteData p.1
      staffLocalIndex := p.2.staffLocalIndex
      letter := p.2.letter
      octave := p.2.octave
      midi := p.2.midi
      clef := p.2.clef
      speed := baseSpeed
      id := now + (p.1 : ℤ)
      isChord := true
      chordId := some now
      line := p.2.line })

/-- The single moving note pushed by `spawnNote` (lines 1370-1385). -/
def mkSingleMovingNote (entry : CatalogEntry) (spawnX : ℚ) (now : ℤ)
    (baseSpeed : ℚ) : MovingNote :=
  { x := spawnX
    staffLocalIndex := entry.staffLocalIndex
    letter := entry.letter
    octave := entry.octave
    midi := entry.midi
    clef := entry.clef
    speed := baseSpeed
    id := now
    isChord := false
    chordId := Option.none
    line := entry.line }

/-- `spawnNote()` (lines 1272-1404), with the random catalog draw of
`pickRandomNote` supplied as the oracle `pick`: when the spawn interval
has elapsed and `canSpawnNote` allows it, push the note or chord with the
level speed, record `lastNoteSpawn = now`, and set the next
`noteSpawnRate` from the level. -/
def spawnNote (geo : Geometry) (now : ℤ) (pick : SpawnPick)
    (g : GameState) : GameState :=
  if now - g.lastNoteSpawn > g.noteSpawnRate then
    if canSpawnNote g 120 = false then g
    else
      let baseSpeed := baseSpeedForLevel g.level
      let g1 :=
        match pick with
        | .chord noteData =>
            { g with movingNotes :=
                g.movingNotes ++ (mkChordMovingNotes noteData
                  (chordSpawnX geo g.currentClef) now baseSpeed) }
        | .single entry =>
            { g with movingNotes :=
                g.movingNotes ++ [mkSingleMovingNote entry
                  (singleSpawnX geo g.currentClef entry.clef) now
                  baseSpeed] }
      { g1 with lastNoteSpawn := now,
                noteSpawnRate := spawnRateForLevel g1.level }
  else g

/-- Following the spec's words ("Dual-clef ('grand'/'hard') mode: one
occupancy slot per clef (bass, treble), filled independently"): a clef's
slot is free when no active note lies on that clef.  Used only to compare
the spec's independent-slot model against the implementation's
`canSpawnNote`. -/
def specClefSlotFree (g : GameState) (c : Clef) : Bool :=
  !(g.movingNotes.any (fun n => decide (n.clef = c)))

/-! ### Forced respawn scheduling (lines 1406-1439) -/

/-- `forceSpawnNoteWithTransitionDelay(currentNoteWasChord)`
(lines 1427-1439): when the *previous* note type was a chord, schedule the
next spawn with a 150 ms delay, otherwise immediately; then record the
type of the note that just resolved.  The scheduled spawn itself
(`forceSpawnNote` → `spawnNote`, a random catalog draw) is recorded in
`pendingSpawn`. -/
def forceSpawnNoteWithTransitionDelay (g : GameState)
    (currentNoteWasChord : Bool) : GameState :=
  let g1 :=
    if g.previousNoteType = NoteType.chord then
      { g with pendingSpawn := some 150 }
    else
      { g with pendingSpawn := some 0 }
  { g1 with previousNoteType :=
      if currentNoteWasChord then NoteType.chord else NoteType.melody }

/-! ### Motion & collision engine (`updateMovingNotes`, lines 1488-1570) -/

/-- The `greenLineCollisionX` resolution inside `updateMovingNotes`
(lines 1493-1525): the matching stave's `clefX + 35`, defaulting to 120
when the stave object is not available.  In dual-clef mode the note's own
clef picks the stave; in single mode the current clef does. -/
def greenLineCollisionX (geo : Geometry) (mode : ClefMode)
    (noteClef : Clef) : ℚ :=
  if isDualClefMode mode then
    match noteClef with
    | .treble =>
        match geo.trebleStave with
        | some s => s.clefX + 35
        | Option.none => 120
    | .bass =>
        match geo.bassStave with
        | some s => s.clefX + 35
        | Option.none => 120
  else if mode = ClefMode.treble then
    match geo.trebleStave with
    | some s => s.clefX + 35
    | Option.none => 120
  else if mode = ClefMode.bass then
    match geo.bassStave with
    | some s => s.clefX + 35
    | Option.none => 120
  else 120

/-- One pass of the `movingNotes.forEach` body of `updateMovingNotes`
(lines 1489-1569) at index `k`, then the next index.  JS `forEach` checks
the index against the array's *current* length, so after the in-place
`splice(index, 1)` of a collided note the element that shifted into slot
`k` is skipped; the fuel argument (initialised to the starting length,
which never increases) only makes the recursion structural. -/
def updateMovingNotesLoop (geo : Geometry) :
    GameState → ℕ → ℕ → GameState
  | g, _, 0 => g
  | g, k, fuel + 1 =>
      match g.movingNotes.get? k with
      | Option.none => g
      | some note =>
        -- `note.x -= note.speed` (line 1490)
        let note1 := { note with x := note.x - note.speed }
        let g := { g with movingNotes := g.movingNotes.set k note1 }
        let g :=
          -- `if (note.x < greenLineCollisionX)` (line 1527)
          if note1.x < greenLineCollisionX geo g.currentClef note1.clef then
            -- chord-progress cleanup (lines 1530-1533)
            let g :=
              if note1.isChord &&
                  (progLookup g.chordProgress note1.chordId).isSome then
                { g with chordProgress :=
                    progDelete g.chordProgress note1.chordId }
              else g
            -- `movingNotes.splice(index, 1)` (line 1535)
            let g := { g with movingNotes := g.movingNotes.eraseIdx k }
            -- `lives--` (line 1544)
            let g := { g with lives := g.lives - 1 }
            -- respawn request (line 1558)
            let g := forceSpawnNoteWithTransitionDelay g note1.isChord
            -- `if (lives <= 0) gameOver()` (lines 1560-1562)
            if g.lives ≤ 0 then { g with gameRunning := false } else g
          else g
        -- off-screen cleanup `if (note.x < -50)` (lines 1566-1568),
        -- still using the captured forEach index
        let g :=
          if note1.x < -50 then
            { g with movingNotes := g.movingNotes.eraseIdx k }
          else g
        updateMovingNotesLoop geo g (k + 1) fuel

/-- `updateMovingNotes()` (lines 1488-1570). -/
def updateMovingNotes (geo : Geometry) (g : GameState) : GameState :=
  updateMovingNotesLoop geo g 0 g.movingNotes.length

/-! ### Input resolution engine (`handleNoteInputWithOctave`,
lines 2052-2628) -/

/-- `cleanupStaleChordProgress()` (lines 307-332): drop entries older
than 5 s or whose chord no longer exists; if more than 10 entries remain,
keep only the 5 most recent by `firstPressTime`. -/
def insertRecent (x : Option ℤ × ChordData) :
    List (Option ℤ × ChordData) → List (Option ℤ × ChordData)
  | [] => [x]
  | y :: rest =>
      if y.2.firstPressTime < x.2.firstPressTime then x :: y :: rest
      else y :: insertRecent x rest

/-- Sort by `firstPressTime`, most recent first (the
`entries.sort((a, b) => b[1].firstPressTime - a[1].firstPressTime)` of
line 325). -/
def sortByRecency : List (Option ℤ × ChordData) →
    List (Option ℤ × ChordData)
  | [] => []
  | x :: rest => insertRecent x (sortByRecency rest)

/-- `cleanupStaleChordProgress()` (lines 307-332), called at the top of
every input event (line 2057). -/
def cleanupStaleChordProgress (now : ℤ) (g : GameState) : GameState :=
  let kept := g.chordProgress.filter (fun kv =>
    !(decide (now - kv.2.firstPressTime > 5000)) &&
    g.movingNotes.any (fun n => n.isChord && decide (n.chordId = kv.1)))
  let kept2 :=
    if kept.length > 10 then (sortByRecency kept).take 5 else kept
  { g with chordProgress := kept2 }

/-- Whether a note belongs to a clef whose hand is active in Piano Mode
(lines 2075-2085 and 2512-2522). -/
def noteFromActiveHand (g : GameState) (n : MovingNote) : Bool :=
  (decide (n.clef = Clef.bass) &&
    !(decide (g.pianoModeSettings.leftHand = HandMode.none))) ||
  (decide (n.clef = Clef.treble) &&
    !(decide (g.pianoModeSettings.rightHand = HandMode.none)))

/-- The per-note filter of the leftmost-matching-note search
(lines 2065-2094): letter equality, then the hard-mode target-clef
restriction, else the Piano-Mode active-hand restriction. -/
def leftmostConsider (g : GameState) (userNote : Letter)
    (targetClef : Option Clef) (n : MovingNote) : Bool :=
  decide (n.letter = userNote) &&
  (match g.pianoModeActive && g.pianoModeSettings.hardMode, targetClef with
   | true, some tcl => decide (n.clef = tcl)
   | _, _ =>
       if g.pianoModeActive && isDualClefMode g.currentClef then
         noteFromActiveHand g n
       else true)

/-- The strict-minimum fold of the leftmost search (`distance <
minDistance`, lines 2088-2093): first note with strictly smallest `x`
among the considered ones, with its index in `movingNotes`. -/
def findLeftmostMatchingNote (g : GameState) (userNote : Letter)
    (targetClef : Option Clef) : Option (ℕ × MovingNote) :=
  (g.movingNotes.enum.filter
      (fun p => leftmostConsider g userNote targetClef p.2)).foldl
    (fun best p =>
      match best with
      | Option.none => some p
      | some q => if p.2.x < q.2.x then some p else some q)
    Option.none

/-- The chord-sibling gather (lines 2102-2108): all moving notes whose
`chordId` strictly equals the leftmost note's (`===` on possibly
`undefined` ids, hence `Option` equality), with indices. -/
def collectChord (g : GameState) (c : Option ℤ) :
    List (ℕ × MovingNote) :=
  g.movingNotes.enum.filter (fun p => decide (p.2.chordId = c))

/-- The per-note match confirmation (lines 2119-2137): letter equality
plus, in strict Piano Mode with an octave supplied, exact octave
equality. -/
def chordNoteMatches (g : GameState) (userNote : Letter)
    (userOctave : Option ℤ) (n : MovingNote) : Bool :=
  decide (n.letter = userNote) &&
  (match g.pianoModeActive && g.pianoModeSettings.strictMode,
      userOctave with
   | true, some o => decide (n.octave = o)
   | _, _ => true)

/-- The first-match-wins loop over the chord notes (lines 2119-2137). -/
def matchInChord (g : GameState) (chordNotes : List (ℕ × MovingNote))
    (userNote : Letter) (userOctave : Option ℤ) :
    Option (ℕ × MovingNote) :=
  chordNotes.find? (fun p => chordNoteMatches g userNote userOctave p.2)

/-- JS `Set.prototype.add`: append unless already present. -/
def setAdd (s : List Letter) (x : Letter) : List Letter :=
  if x ∈ s then s else s ++ [x]

/-- JS `Map.prototype.set` on the timestamps map. -/
def mapSet (m : List (Letter × ℤ)) (k : Letter) (v : ℤ) :
    List (Letter × ℤ) :=
  match m with
  | [] => [(k, v)]
  | (k1, v1) :: rest =>
      if k1 = k then (k1, v) :: rest else (k1, v1) :: mapSet rest k v

/-- `allChordNotes` (lines 2145-2147): the active notes of one chord. -/
def allChordNotes (g : GameState) (c : Option ℤ) : List MovingNote :=
  g.movingNotes.filter (fun n => n.isChord && decide (n.chordId = c))

/-- The letter set of a chord
(`new Set(allChordNotes.map(n => n.note.toUpperCase()))`, line 2180):
distinct letters in first-occurrence order. -/
def uniqueLetters (ns : List MovingNote) : List Letter :=
  ns.foldl (fun acc n => if n.letter ∈ acc then acc else acc ++ [n.letter])
    []

/-- The grace-period reset (lines 2162-2172): with prior progress and
more than 300 ms since the first press, reset only when more than
3 × 300 ms have elapsed. -/
def chordDataAfterGrace (cd : ChordData) (now : ℤ) : ChordData :=
  if now - cd.firstPressTime > 300 ∧ cd.pressedNotes.length > 0 then
    if now - cd.firstPressTime > 300 * 3 then
      { pressedNotes := [], timestamps := [], firstPressTime := now }
    else cd
  else cd

/-- Lines 2153-2177: create the progress entry on first press
(`firstPressTime = now`), apply the grace-period reset, then record the
pressed letter and its timestamp. -/
def chordDataRecorded (cd0 : Option ChordData) (now : ℤ)
    (noteKey : Letter) : ChordData :=
  let cd :=
    match cd0 with
    | some cd => cd
    | Option.none =>
        { pressedNotes := [], timestamps := [], firstPressTime := now }
  let cd1 := chordDataAfterGrace cd now
  { cd1 with pressedNotes := setAdd cd1.pressedNotes noteKey,
             timestamps := mapSet cd1.timestamps noteKey now }

/-- `allPressed` (lines 2180-2181): every letter of the chord is in the
pressed set. -/
def chordPressCompletes (letters : List Letter) (cd : ChordData) : Bool :=
  letters.all (fun l => decide (l ∈ cd.pressedNotes))

/-- The anomaly safety check (lines 2183-2191): if the pressed set
outgrew the chord's letter set, restart it from the current press alone.
(The source computes `allPressed` *before* this check.) -/
def chordDataSafety (cd : ChordData) (allLettersCount : ℕ) (now : ℤ)
    (noteKey : Letter) : ChordData :=
  if cd.pressedNotes.length > allLettersCount then
    { pressedNotes := [noteKey], timestamps := [(noteKey, now)],
      firstPressTime := now }
  else cd

/-- The chord branch of a confirmed match (lines 2141-2293).  Returns the
new state plus the `allPressed` flag; `false` means the source returned
early (line 2292), skipping level progression.  Lasers, explosions,
sounds and feedback text are external sinks. -/
def processChordMatch (g : GameState) (now : ℤ) (m : MovingNote) :
    GameState × Bool :=
  let chordId := m.chordId
  let chordNotes := allChordNotes g chordId
  let cd2 := chordDataRecorded (progLookup g.chordProgress chordId) now
    m.letter
  let letters := uniqueLetters chordNotes
  let allPressed := chordPressCompletes letters cd2
  let cd3 := chordDataSafety cd2 letters.length now m.letter
  let g := { g with chordProgress := progSet g.chordProgress chordId cd3 }
  if allPressed then
    -- lines 2195-2267: group scoring, hand credit, atomic removal,
    -- progress cleanup, chord-transition respawn
    let g := { g with score := g.score + 1,
                      notesDestroyed := g.notesDestroyed + 1,
                      correctAnswers := g.correctAnswers + 1 }
    let g :=
      if g.pianoModeActive && isDualClefMode g.currentClef then
        match m.clef with
        | .bass => { g with leftHandScore := g.leftHandScore + 1 }
        | .treble => { g with rightHandScore := g.rightHandScore + 1 }
      else g
    let g := { g with movingNotes :=
        (g.movingNotes.filter
          (fun n => !(n.isChord && decide (n.chordId = chordId)))) }
    let g := { g with chordProgress := progDelete g.chordProgress chordId }
    (forceSpawnNoteWithTransitionDelay g true, true)
  else
    (g, false)

/-- The single-note branch of a confirmed match (lines 2294-2366). -/
def processSingleMatch (g : GameState) (m : MovingNote)
    (matchedIndex : ℕ) : GameState :=
  let g := { g with score := g.score + 1,
                    notesDestroyed := g.notesDestroyed + 1,
                    correctAnswers := g.correctAnswers + 1 }
  let g :=
    if g.pianoModeActive && isDualClefMode g.currentClef then
      match m.clef with
      | .bass => { g with leftHandScore := g.leftHandScore + 1 }
      | .treble => { g with rightHandScore := g.rightHandScore + 1 }
    else g
  -- `movingNotes.splice(matchedIndex, 1)` (line 2355)
  let g := { g with movingNotes := g.movingNotes.eraseIdx matchedIndex }
  forceSpawnNoteWithTransitionDelay g false

/-- The level-advance decision with its hand-counter resets
(lines 2370-2424): in Piano Mode each *enabled* hand must reach 10
(resetting the hands that did); otherwise 10 correct answers suffice. -/
def canAdvanceAndReset (g : GameState) : Bool × GameState :=
  if g.pianoModeActive && isDualClefMode g.currentClef then
    let leftActive := !(decide (g.pianoModeSettings.leftHand =
      HandMode.none))
    let rightActive := !(decide (g.pianoModeSettings.rightHand =
      HandMode.none))
    if leftActive && rightActive then
      if 10 ≤ g.leftHandScore ∧ 10 ≤ g.rightHandScore then
        (true, { g with leftHandScore := 0, rightHandScore := 0 })
      else (false, g)
    else if leftActive && !rightActive then
      if 10 ≤ g.leftHandScore then (true, { g with leftHandScore := 0 })
      else (false, g)
    else if !leftActive && rightActive then
      if 10 ≤ g.rightHandScore then (true, { g with rightHandScore := 0 })
      else (false, g)
    else if 10 ≤ g.correctAnswers then (true, g)
    else (false, g)
  else if 10 ≤ g.correctAnswers then (true, g)
  else (false, g)

/-- Level progression after a successful match (lines 2369-2452):
advance, reset the shared counter, clear all active notes, and grant a
bonus life (cap 3) at levels 4 and 8. -/
def checkLevelProgression (g : GameState) : GameState :=
  let p := canAdvanceAndReset g
  if p.1 then
    let g := p.2
    let g := { g with level := g.level + 1, correctAnswers := 0,
                      movingNotes := [] }
    if (g.level = 4 ∨ g.level = 8) ∧ g.lives < 3 then
      { g with lives := g.lives + 1 }
    else g
  else p.2

/-- The wrong-note forgiveness decision (lines 2457-2502): returns
`(shouldCountError, updated window, isChordError)`.  The window logic
only runs when a chord is active, or when the previous note was a chord
(melody inheriting the chord window); in plain melody play the error is
always counted and the window is untouched. -/
def wrongNoteForgiveness (g : GameState) (now : ℤ) :
    Bool × WrongNoteWindow × Bool :=
  let w := g.chordWrongNoteWindow
  if g.movingNotes.any (fun n => n.isChord) then
    let within := now - w.lastWrongNoteTime < w.windowDuration
    let shouldCount := if within then !w.hasCountedError else true
    let counted0 := if within then w.hasCountedError else false
    (shouldCount,
     { lastWrongNoteTime := now, windowDuration := w.windowDuration,
       hasCountedError := if shouldCount then true else counted0 },
     true)
  else if g.previousNoteType = NoteType.chord then
    let within := now - w.lastWrongNoteTime < w.windowDuration
    let shouldCount := if within then !w.hasCountedError else true
    let counted0 := if within then w.hasCountedError else false
    (shouldCount,
     { lastWrongNoteTime := now, windowDuration := w.windowDuration,
       hasCountedError := if shouldCount then true else counted0 },
     false)
  else (true, w, false)

/-- The leftmost-note-to-destroy search of the wrong-input path
(lines 2504-2530): leftmost active note regardless of letter, respecting
the Piano-Mode active-hand filter. -/
def findLeftmostDestroy (g : GameState) : Option (ℕ × MovingNote) :=
  (g.movingNotes.enum.filter (fun p =>
      if g.pianoModeActive && isDualClefMode g.currentClef then
        noteFromActiveHand g p.2
      else true)).foldl
    (fun best p =>
      match best with
      | Option.none => some p
      | some q => if p.2.x < q.2.x then some p else some q)
    Option.none

/-- The destruction step of the wrong-input path (lines 2533-2575):
destroy the whole chord (clearing its progress) or the single leftmost
note, then request the next spawn with chord-transition awareness; when
no note is visible, nothing is destroyed and no spawn is requested. -/
def wrongDestroyStep (g : GameState) (isChordError : Bool) : GameState :=
  match findLeftmostDestroy g with
  | some (i, n) =>
      let g :=
        if n.isChord then
          let g := { g with movingNotes :=
              (g.movingNotes.filter
                (fun nn => !(nn.isChord && decide (nn.chordId = n.chordId)))) }
          { g with chordProgress := progDelete g.chordProgress n.chordId }
        else
          { g with movingNotes := g.movingNotes.eraseIdx i }
      forceSpawnNoteWithTransitionDelay g isChordError
  | Option.none => g

/-- The wrong-input path (lines 2454-2623): forgiveness accounting,
leftmost destruction, conditional life loss, game over at 0 lives. -/
def processWrongInput (g : GameState) (now : ℤ) : GameState :=
  let fw := wrongNoteForgiveness g now
  let g := { g with chordWrongNoteWindow := fw.2.1 }
  let g := wrongDestroyStep g fw.2.2
  let g := if fw.1 then { g with lives := g.lives - 1 } else g
  if g.lives ≤ 0 then { g with gameRunning := false } else g

/-- `handleNoteInputWithOctave(userNote, userOctave, targetClef)`
(lines 2052-2628): the full input resolution pipeline.  `tryStartMusic`
and the display updates are external sinks. -/
def handleNoteInputWithOctave (g : GameState) (now : ℤ)
    (userNote : Letter) (userOctave : Option ℤ)
    (targetClef : Option Clef) : GameState :=
  if g.gameRunning = false then g
  else
    let g := cleanupStaleChordProgress now g
    match findLeftmostMatchingNote g userNote targetClef with
    | some (i, n) =>
        let chordNotes :=
          if n.isChord then collectChord g n.chordId else [(i, n)]
        match matchInChord g chordNotes userNote userOctave with
        | some (_j, m) =>
            if m.isChord then
              let pr := processChordMatch g now m
              if pr.2 then checkLevelProgression pr.1 else pr.1
            else checkLevelProgression (processSingleMatch g m _j)
        | Option.none => processWrongInput g now
    | Option.none => processWrongInput g now

/-! ### Concrete fixtures used by witnesses and counterexamples -/

/-- Piano-Mode settings fixture: right hand plays chords on the treble
clef, left hand disabled, no strict octave, no hard mode. -/
def fixSettings : PianoSettings :=
  { strictMode := false, hardMode := false, leftHand := HandMode.none,
    rightHand := HandMode.chords }

/-- The initial wrong-note window (lines 296-300). -/
def fixWindow : WrongNoteWindow :=
  { lastWrongNoteTime := 0, windowDuration := 150,
    hasCountedError := false }

/-- A fresh running game in treble mode with no active notes
(initial values of lines 836-868). -/
def fixBase : GameState :=
  { gameRunning := true, score := 0, lives := 3, notesDestroyed := 0,
    level := 1, correctAnswers := 0, leftHandScore := 0,
    rightHandScore := 0, currentClef := ClefMode.treble,
    maxLedgerLines := 4, movingNotes := [], chordProgress := [],
    chordWrongNoteWindow := fixWindow,
    previousNoteType := NoteType.melody, pianoModeActive := false,
    pianoModeSettings := fixSettings, lastNoteSpawn := 0,
    noteSpawnRate := 2200, pendingSpawn := Option.none }

/-- Member E4 of a two-note treble chord with chordId 7. -/
def fixNoteE : MovingNote :=
  { x := 100, staffLocalIndex := 0, letter := Letter.E, octave := 4,
    midi := 64, clef := Clef.treble, speed := 1, id := 1, isChord := true,
    chordId := some 7, line := 0 }

/-- Member G4 of the same chord. -/
def fixNoteG : MovingNote :=
  { fixNoteE with
      letter := Letter.G, staffLocalIndex := 2, midi := 67, id := 2 }

/-- A single (non-chord) moving C4 note far from the collision line. -/
def fixMelodyNote : MovingNote :=
  { x := 300, staffLocalIndex := 0, letter := Letter.C, octave := 4,
    midi := 60, clef := Clef.treble, speed := 1, id := 3, isChord := false,
    chordId := Option.none, line := 0 }

/-- Render geometry: a treble stave with `clefX = 120`, so the collision
line sits at x = 155; no bass stave. -/
def fixGeo : Geometry :=
  { canvasWidth := 1000,
    trebleStave := some { x := 100, width := 600, clefX := 120 },
    bassStave := Option.none }

/-- Grand-staff piano state with the E+G chord both at x = 100, past the
collision line, and partial progress (E already pressed earlier). -/
def fixMissState : GameState :=
  { fixBase with
      currentClef := ClefMode.grand, pianoModeActive := true,
      movingNotes := [fixNoteE, fixNoteG],
      chordProgress := [(some 7,
        { pressedNotes := [Letter.E], timestamps := [(Letter.E, 0)],
          firstPressTime := 0 })] }

/-- Melody play: one active C4 note, previous note melody. -/
def fixMelodyState : GameState :=
  { fixBase with movingNotes := [fixMelodyNote] }

/-- Grand-staff piano state with the E+G chord active on screen and the
letter G already recorded 100 ms ago. -/
def fixChordState : GameState :=
  { fixBase with
      currentClef := ClefMode.grand, pianoModeActive := true,
      movingNotes := [fixNoteE, fixNoteG],
      chordProgress := [(some 7,
        { pressedNotes := [Letter.G], timestamps := [(Letter.G, 900)],
          firstPressTime := 900 })] }

/-- Grand-staff state with one active treble note and an empty bass
clef. -/
def fixGrandOneTreble : GameState :=
  { fixBase with
      currentClef := ClefMode.grand, movingNotes := [fixMelodyNote] }

/-- A level-7 state ready to spawn. -/
def fixLevel7 : GameState :=
  { fixBase with level := 7, noteSpawnRate := 1200 }

/-- The chord-transition gap: no note on screen yet, previous resolved
note a chord, fresh wrong-note window. -/
def fixGapState : GameState :=
  { fixBase with previousNoteType := NoteType.chord }

/-- The same gap 50 ms after a counted wrong-note event. -/
def fixGapCounted : GameState :=
  { fixBase with
      previousNoteType := NoteType.chord,
      chordWrongNoteWindow :=
        { lastWrongNoteTime := 950, windowDuration := 150,
          hasCountedError := true } }

/-- The state after one `updateMovingNotes` tick on `fixMissState`: only
the chord member at the crossing index was removed and one life was
charged; the sibling G remains active with its position untouched. -/
def fixState1 : GameState :=
  { fixBase with
      currentClef := ClefMode.grand, pianoModeActive := true,
      movingNotes := [fixNoteG], chordProgress := [], lives := 2,
      previousNoteType := NoteType.chord, pendingSpawn := some 0 }

/-! ### Theorems on the pitch model and the catalog -/

/-- Helper: `midiToScientific` on `(o + 1) * 12 + v` with `0 ≤ v < 12`
recovers octave `o` and looks the letter up at index `v`. -/
theorem midiToScientific_mul_add (o v : ℤ) (ho : -1 ≤ o) (hv0 : 0 ≤ v)
    (hv : v < 12) :
    midiToScientific ((o + 1) * 12 + v) =
      (noteNamesFirstLetter.get? v.toNat).map (fun l => (l, o)) := by
  have h1 : ((o + 1) * 12 + v).fdiv 12 = o + 1 := by
    rw [Int.fdiv_eq_ediv _ (by norm_num)]; omega
  have h2 : Int.tmod ((o + 1) * 12 + v) 12 = v := by
    rw [Int.tmod_eq_emod (by omega) (by norm_num)]; omega
  simp only [midiToScientific, h1, h2, if_pos hv0]
  have h3 : o + 1 - 1 = o := by omega
  rw [h3]

/-- C8: `getStaffLocalIndex` is deterministic, increments by exactly 1
between diatonically adjacent letters (consecutive positions in
`letterOrder`) at a fixed octave, and increments by exactly 7 when the
octave is raised by 1, on both clefs. -/
theorem staffLocalIndex_deterministic_adjacent_octave :
    (∀ (l : Letter) (o : ℤ) (c : Clef) (x y : ℤ),
        getStaffLocalIndex l o c = x → getStaffLocalIndex l o c = y →
        x = y) ∧
    (∀ (l₁ l₂ : Letter) (o : ℤ) (c : Clef),
        letterOrder.indexOf l₂ = letterOrder.indexOf l₁ + 1 →
        getStaffLocalIndex l₂ o c = getStaffLocalIndex l₁ o c + 1) ∧
    (∀ (l : Letter) (o : ℤ) (c : Clef),
        getStaffLocalIndex l (o + 1) c = getStaffLocalIndex l o c + 7) := by
  refine ⟨fun l o c x y hx hy => hx ▸ hy, ?_, ?_⟩
  · intro l₁ l₂ o c h
    have h' : (letterOrder.indexOf l₂ : ℤ) =
        (letterOrder.indexOf l₁ : ℤ) + 1 := by exact_mod_cast h
    cases c <;> simp only [getStaffLocalIndex] <;> omega
  · intro l o c
    cases c <;> simp only [getStaffLocalIndex] <;> ring

/-- C8 witness: D4 sits exactly one staff position above C4 on the treble
clef, C4 maps to the same index twice, and raising C4 to C5 adds 7. -/
theorem staffLocalIndex_deterministic_adjacent_octave_witness :
    getStaffLocalIndex Letter.D 4 Clef.treble =
      getStaffLocalIndex Letter.C 4 Clef.treble + 1 :=
  staffLocalIndex_deterministic_adjacent_octave.2.1 Letter.C Letter.D 4
    Clef.treble (by decide)

/-- C9: `midiToScientific (scientificToMidi l o)` returns exactly
`(l, o)` for every natural letter and octave `o ≥ -1` (the playable range
sits well inside), and every chromatic (black-key) MIDI number resolves to
the natural letter one semitone below. -/
theorem midi_roundtrip_and_chromatic :
    (∀ (l : Letter) (o : ℤ), -1 ≤ o →
        midiToScientific (scientificToMidi l o) = some (l, o)) ∧
    (∀ midi : ℤ, 0 ≤ midi →
        (Int.tmod midi 12 = 1 ∨ Int.tmod midi 12 = 3 ∨
         Int.tmod midi 12 = 6 ∨ Int.tmod midi 12 = 8 ∨
         Int.tmod midi 12 = 10) →
        ∃ l : Letter, midiToScientific midi = some (l, midi.fdiv 12 - 1) ∧
          noteValues l = Int.tmod midi 12 - 1) := by
  constructor
  · intro l o ho
    have hv0 : 0 ≤ noteValues l := by cases l <;> norm_num [noteValues]
    have hv12 : noteValues l < 12 := by cases l <;> norm_num [noteValues]
    rw [show scientificToMidi l o = (o + 1) * 12 + noteValues l from rfl,
        midiToScientific_mul_add o (noteValues l) ho hv0 hv12]
    cases l <;> rfl
  · intro midi hmidi hchrom
    simp only [midiToScientific]
    rcases hchrom with h | h | h | h | h <;> rw [h]
    · exact ⟨Letter.C, by rw [if_pos (by norm_num)]; rfl,
        by norm_num [noteValues]⟩
    · exact ⟨Letter.D, by rw [if_pos (by norm_num)]; rfl,
        by norm_num [noteValues]⟩
    · exact ⟨Letter.F, by rw [if_pos (by norm_num)]; rfl,
        by norm_num [noteValues]⟩
    · exact ⟨Letter.G, by rw [if_pos (by norm_num)]; rfl,
        by norm_num [noteValues]⟩
    · exact ⟨Letter.A, by rw [if_pos (by norm_num)]; rfl,
        by norm_num [noteValues]⟩

/-- C9 witness: the round trip at E4 (MIDI 64), and MIDI 61 (C#4)
resolves to the natural letter C. -/
theorem midi_roundtrip_and_chromatic_witness :
    midiToScientific (scientificToMidi Letter.E 4) = some (Letter.E, 4) :=
  midi_roundtrip_and_chromatic.1 Letter.E 4 (by norm_num)

/-- C6: for every ledger-line budget `L`, a catalog entry survives the
filter of `pickRandomNote` exactly when `-L ≤ staffLocalIndex ≤ 8 + L`
(the `L = 0` branch coincides with this bound), and the empty-filter
fallback returns the unfiltered catalog, so spawning never stalls. -/
theorem ledger_filter_eligibility_and_fallback :
    (∀ (L : ℤ) (arr : List CatalogEntry) (e : CatalogEntry),
        e ∈ filterAvailableNotes L arr ↔
          e ∈ arr ∧ -L ≤ e.staffLocalIndex ∧ e.staffLocalIndex ≤ 8 + L) ∧
    (∀ (L : ℤ) (arr : List CatalogEntry),
        filterAvailableNotes L arr = [] →
        availableNotesWithFallback L arr = arr) ∧
    (∀ (L : ℤ) (arr : List CatalogEntry), arr ≠ [] →
        availableNotesWithFallback L arr ≠ []) := by
  refine ⟨?_, ?_, ?_⟩
  · intro L arr e
    unfold filterAvailableNotes
    split
    · next hL =>
        subst hL
        simp only [List.mem_filter, Bool.and_eq_true, decide_eq_true_eq]
        constructor
        · rintro ⟨h1, h2, h3⟩; exact ⟨h1, by omega, by omega⟩
        · rintro ⟨h1, h2, h3⟩; exact ⟨h1, by omega, by omega⟩
    · simp only [List.mem_filter, Bool.and_eq_true, decide_eq_true_eq]
  · intro L arr h
    simp only [availableNotesWithFallback]
    rw [if_pos h]
  · intro L arr h
    simp only [availableNotesWithFallback]
    split
    · exact h
    · next hne => exact hne

/-- C6 witness: with the treble catalog and `L = 0` the filter keeps
exactly the on-staff notes (E4 is kept), and the fallback on a filter that
becomes empty (budget `L = -20`) returns the whole catalog. -/
theorem ledger_filter_eligibility_and_fallback_witness :
    mkEntry Clef.treble Letter.E 4 ∈ filterAvailableNotes 0
      notePositions.treble ∧
    availableNotesWithFallback (-20) notePositions.treble ≠ [] :=
  ⟨(ledger_filter_eligibility_and_fallback.1 0 notePositions.treble
      (mkEntry Clef.treble Letter.E 4)).mpr ⟨by decide, by decide, by decide⟩,
   ledger_filter_eligibility_and_fallback.2.2 (-20) notePositions.treble
     (by decide)⟩

/-- C7 counterexample: the treble catalog entry (F,5) has
`staffLocalIndex` 8 — not 10 — and with `maxLedgerLines = 0` it is *not*
filtered out: it survives the filter as an on-staff note. -/
theorem trebleF5_index_not_ten :
    getStaffLocalIndex Letter.F 5 Clef.treble ≠ 10 ∧
    mkEntry Clef.treble Letter.F 5 ∈ filterAvailableNotes 0
      notePositions.treble := by decide

/-- C7 amended: the treble catalog entry (F,5) has `staffLocalIndex` 8
(the top staff line, an on-staff note, not a ledger-line note); it is in
the treble catalog and remains eligible both with `maxLedgerLines = 4`
and with `maxLedgerLines = 0`. -/
theorem trebleF5_on_staff_always_eligible :
    getStaffLocalIndex Letter.F 5 Clef.treble = 8 ∧
    mkEntry Clef.treble Letter.F 5 ∈ notePositions.treble ∧
    mkEntry Clef.treble Letter.F 5 ∈ filterAvailableNotes 4
      notePositions.treble ∧
    mkEntry Clef.treble Letter.F 5 ∈ filterAvailableNotes 0
      notePositions.treble := by decide

/-! ### Supporting lemmas for the state-machine theorems -/


theorem cleanup_movingNotes (now : ℤ) (g : GameState) :
    (cleanupStaleChordProgress now g).movingNotes = g.movingNotes := rfl

theorem cleanup_score (now : ℤ) (g : GameState) :
    (cleanupStaleChordProgress now g).score = g.score := rfl

theorem cleanup_lives (now : ℤ) (g : GameState) :
    (cleanupStaleChordProgress now g).lives = g.lives := rfl

theorem mem_setAdd (s : List Letter) (x l : Letter) :
    l ∈ setAdd s x ↔ l ∈ s ∨ l = x := by
  unfold setAdd
  split
  · next h => constructor
              · exact fun hl => Or.inl hl
              · rintro (hl | rfl)
                · exact hl
                · exact h
  · simp [List.mem_append]

theorem mem_uniqueLetters_aux (ns : List MovingNote) (acc : List Letter) :
    (∀ l ∈ acc, l ∈ ns.foldl
      (fun a n => if n.letter ∈ a then a else a ++ [n.letter]) acc) ∧
    (∀ x ∈ ns, x.letter ∈ ns.foldl
      (fun a n => if n.letter ∈ a then a else a ++ [n.letter]) acc) := by
  induction ns generalizing acc with
  | nil => simp
  | cons hd tl ih =>
      constructor
      · intro l hl
        simp only [List.foldl_cons]
        apply (ih _).1
        split
        · exact hl
        · exact List.mem_append_left _ hl
      · intro x hx
        simp only [List.foldl_cons]
        rcases List.mem_cons.mp hx with rfl | hx
        · apply (ih _).1
          split
          · next h => exact h
          · exact List.mem_append_right _ (by simp)
        · exact (ih _).2 x hx

theorem mem_uniqueLetters (ns : List MovingNote) (x : MovingNote)
    (hx : x ∈ ns) : x.letter ∈ uniqueLetters ns :=
  (mem_uniqueLetters_aux ns []).2 x hx

theorem progLookup_progDelete (ps : List (Option ℤ × ChordData))
    (c : Option ℤ) : progLookup (progDelete ps c) c = Option.none := by
  induction ps with
  | nil => rfl
  | cons hd tl ih =>
      unfold progDelete at *
      simp only [List.filter_cons]
      split
      · next h =>
          have h2 : ¬(hd.1 = c) := by simpa using h
          unfold progLookup
          rw [if_neg h2]
          exact ih
      · exact ih

theorem snd_mem_of_mem_enum {α : Type} {l : List α} {p : ℕ × α}
    (h : p ∈ l.enum) : p.2 ∈ l := by
  have h2 := List.mem_map_of_mem Prod.snd h
  rwa [List.enum_map_snd] at h2

theorem collectChord_mem (g : GameState) (c : Option ℤ) (j : ℕ)
    (m : MovingNote) (h : (j, m) ∈ collectChord g c) :
    m ∈ g.movingNotes ∧ m.chordId = c := by
  unfold collectChord at h
  have h1 := List.mem_filter.mp h
  refine ⟨snd_mem_of_mem_enum h1.1, ?_⟩
  simpa using h1.2

theorem chordPressCompletes_iff (letters : List Letter) (cd : ChordData) :
    chordPressCompletes letters cd = true ↔
      ∀ l ∈ letters, l ∈ cd.pressedNotes := by
  unfold chordPressCompletes
  simp [List.all_eq_true]

theorem canAdvanceAndReset_snd (g : GameState)
    (h : (canAdvanceAndReset g).1 = false) :
    (canAdvanceAndReset g).2 = g := by
  unfold canAdvanceAndReset at h ⊢
  repeat' split <;> simp_all

theorem checkLevelProgression_no_advance (g : GameState)
    (h : (canAdvanceAndReset g).1 = false) :
    checkLevelProgression g = g := by
  simp only [checkLevelProgression]
  rw [h]
  simp [canAdvanceAndReset_snd g h]

theorem grace_pressed_sub (cd : ChordData) (now : ℤ) (l : Letter)
    (h : l ∈ (chordDataAfterGrace cd now).pressedNotes) :
    l ∈ cd.pressedNotes := by
  unfold chordDataAfterGrace at h
  split at h
  · split at h
    · simp at h
    · exact h
  · exact h

theorem recorded_pressed_sub (cd0 : Option ChordData) (now : ℤ)
    (noteKey l : Letter)
    (h : l ∈ (chordDataRecorded cd0 now noteKey).pressedNotes) :
    (∃ cd, cd0 = some cd ∧ l ∈ cd.pressedNotes) ∨ l = noteKey := by
  unfold chordDataRecorded at h
  rw [mem_setAdd] at h
  rcases h with h | rfl
  · cases cd0 with
    | none =>
        have h2 := grace_pressed_sub _ _ _ h
        simp at h2
    | some cd => exact Or.inl ⟨cd, rfl, grace_pressed_sub _ _ _ h⟩
  · exact Or.inr rfl

theorem mem_recorded_pressed_of_key (cd0 : Option ChordData) (now : ℤ)
    (noteKey : Letter) :
    noteKey ∈ (chordDataRecorded cd0 now noteKey).pressedNotes := by
  unfold chordDataRecorded
  rw [mem_setAdd]
  exact Or.inr rfl

theorem processChordMatch_snd (g : GameState) (now : ℤ) (m : MovingNote) :
    (processChordMatch g now m).2 =
      chordPressCompletes (uniqueLetters (allChordNotes g m.chordId))
        (chordDataRecorded (progLookup g.chordProgress m.chordId) now
          m.letter) := by
  simp only [processChordMatch]
  split <;> simp_all

theorem cleanup_notesDestroyed (now : ℤ) (g : GameState) :
    (cleanupStaleChordProgress now g).notesDestroyed = g.notesDestroyed :=
  rfl

theorem cleanup_correctAnswers (now : ℤ) (g : GameState) :
    (cleanupStaleChordProgress now g).correctAnswers = g.correctAnswers :=
  rfl

theorem cleanup_level (now : ℤ) (g : GameState) :
    (cleanupStaleChordProgress now g).level = g.level := rfl

theorem cleanup_leftHandScore (now : ℤ) (g : GameState) :
    (cleanupStaleChordProgress now g).leftHandScore = g.leftHandScore :=
  rfl

theorem cleanup_rightHandScore (now : ℤ) (g : GameState) :
    (cleanupStaleChordProgress now g).rightHandScore = g.rightHandScore :=
  rfl

theorem cleanup_pianoModeActive (now : ℤ) (g : GameState) :
    (cleanupStaleChordProgress now g).pianoModeActive =
      g.pianoModeActive := rfl

theorem cleanup_currentClef (now : ℤ) (g : GameState) :
    (cleanupStaleChordProgress now g).currentClef = g.currentClef := rfl

theorem cleanup_pendingSpawn (now : ℤ) (g : GameState) :
    (cleanupStaleChordProgress now g).pendingSpawn = g.pendingSpawn := rfl

theorem cleanup_window (now : ℤ) (g : GameState) :
    (cleanupStaleChordProgress now g).chordWrongNoteWindow =
      g.chordWrongNoteWindow := rfl

theorem cleanup_previousNoteType (now : ℤ) (g : GameState) :
    (cleanupStaleChordProgress now g).previousNoteType =
      g.previousNoteType := rfl

theorem processChordMatch_incomplete (g : GameState) (now : ℤ)
    (m : MovingNote)
    (hc2 : chordPressCompletes (uniqueLetters (allChordNotes g m.chordId))
      (chordDataRecorded (progLookup g.chordProgress m.chordId) now
        m.letter) = false) :
    (processChordMatch g now m).1.score = g.score ∧
    (processChordMatch g now m).1.notesDestroyed = g.notesDestroyed ∧
    (processChordMatch g now m).1.correctAnswers = g.correctAnswers ∧
    (processChordMatch g now m).1.movingNotes = g.movingNotes ∧
    (processChordMatch g now m).1.lives = g.lives ∧
    (processChordMatch g now m).1.level = g.level := by
  simp [processChordMatch, hc2]

theorem cleanup_gameRunning (now : ℤ) (g : GameState) :
    (cleanupStaleChordProgress now g).gameRunning = g.gameRunning := rfl


theorem forceSpawn_lives (g : GameState) (b : Bool) :
    (forceSpawnNoteWithTransitionDelay g b).lives = g.lives := by
  simp only [forceSpawnNoteWithTransitionDelay]
  split <;> rfl

theorem forceSpawn_window (g : GameState) (b : Bool) :
    (forceSpawnNoteWithTransitionDelay g b).chordWrongNoteWindow =
      g.chordWrongNoteWindow := by
  simp only [forceSpawnNoteWithTransitionDelay]
  split <;> rfl

theorem forceSpawn_gameRunning (g : GameState) (b : Bool) :
    (forceSpawnNoteWithTransitionDelay g b).gameRunning =
      g.gameRunning := by
  simp only [forceSpawnNoteWithTransitionDelay]
  split <;> rfl

theorem wrongDestroyStep_lives (g : GameState) (b : Bool) :
    (wrongDestroyStep g b).lives = g.lives := by
  simp only [wrongDestroyStep]
  split
  · rw [forceSpawn_lives]; split <;> rfl
  · rfl

theorem wrongDestroyStep_window (g : GameState) (b : Bool) :
    (wrongDestroyStep g b).chordWrongNoteWindow =
      g.chordWrongNoteWindow := by
  simp only [wrongDestroyStep]
  split
  · rw [forceSpawn_window]; split <;> rfl
  · rfl

theorem wrongDestroyStep_gameRunning (g : GameState) (b : Bool) :
    (wrongDestroyStep g b).gameRunning = g.gameRunning := by
  simp only [wrongDestroyStep]
  split
  · rw [forceSpawn_gameRunning]; split <;> rfl
  · rfl

theorem processWrongInput_lives (g : GameState) (now : ℤ) :
    (processWrongInput g now).lives =
      (if (wrongNoteForgiveness g now).1 = true then g.lives - 1
       else g.lives) := by
  simp only [processWrongInput]
  split <;> split <;> simp_all [wrongDestroyStep_lives]

theorem processWrongInput_window (g : GameState) (now : ℤ) :
    (processWrongInput g now).chordWrongNoteWindow =
      (wrongNoteForgiveness g now).2.1 := by
  simp only [processWrongInput]
  split <;> split <;> simp_all [wrongDestroyStep_window]

theorem handler_wrong_path (g0 g1 : GameState) (now : ℤ) (u : Letter)
    (uo : Option ℤ) (tc : Option Clef)
    (hrun : g0.gameRunning = true)
    (hclean : cleanupStaleChordProgress now g0 = g1)
    (hfind : findLeftmostMatchingNote g1 u tc = Option.none) :
    handleNoteInputWithOctave g0 now u uo tc =
      processWrongInput g1 now := by
  simp only [handleNoteInputWithOctave, hrun, hclean, hfind,
    Bool.true_eq_false, if_false, ite_false]


theorem processChordMatch_complete (g : GameState) (now : ℤ)
    (m : MovingNote)
    (hc2 : chordPressCompletes (uniqueLetters (allChordNotes g m.chordId))
      (chordDataRecorded (progLookup g.chordProgress m.chordId) now
        m.letter) = true) :
    (processChordMatch g now m).1.score = g.score + 1 ∧
    (processChordMatch g now m).1.notesDestroyed = g.notesDestroyed + 1 ∧
    (processChordMatch g now m).1.correctAnswers = g.correctAnswers + 1 ∧
    (processChordMatch g now m).1.lives = g.lives ∧
    (processChordMatch g now m).1.level = g.level ∧
    (processChordMatch g now m).1.movingNotes =
      g.movingNotes.filter
        (fun nn => !(nn.isChord && decide (nn.chordId = m.chordId))) ∧
    progLookup (processChordMatch g now m).1.chordProgress m.chordId =
      Option.none ∧
    ((g.pianoModeActive && isDualClefMode g.currentClef) = true →
      (m.clef = Clef.bass →
        (processChordMatch g now m).1.leftHandScore =
          g.leftHandScore + 1) ∧
      (m.clef = Clef.treble →
        (processChordMatch g now m).1.rightHandScore =
          g.rightHandScore + 1)) := by
  simp only [processChordMatch, hc2, ite_true,
    forceSpawnNoteWithTransitionDelay]
  refine ⟨?_, ?_, ?_, ?_, ?_, ?_, ?_, ?_⟩ <;>
    repeat' split <;> simp_all [progLookup_progDelete]

/-- C1: on a chord-member press, the chord completes exactly when the
recorded pressed-letter set equals the chord's full letter set; on
completion score, notesDestroyed and correctAnswers each rise by exactly
1 for the whole group, the matching clef's hand is credited in dual-hand
Piano Mode, every note with that chordId leaves the active set and the
progress entry is deleted; an incomplete press changes no score, removes
no note, and returns before level-up is evaluated. -/
theorem chord_completion_iff_full_letter_set
    (g0 g1 : GameState) (now : ℤ) (u : Letter) (uo : Option ℤ)
    (tc : Option Clef) (i j : ℕ) (n m : MovingNote)
    (r : GameState) (letters : List Letter) (cd2 : ChordData)
    (hrun : g0.gameRunning = true)
    (hclean : cleanupStaleChordProgress now g0 = g1)
    (hfind : findLeftmostMatchingNote g1 u tc = some (i, n))
    (hn : n.isChord = true)
    (hmatch : matchInChord g1 (collectChord g1 n.chordId) u uo =
      some (j, m))
    (hmc : m.isChord = true)
    (hsub : ∀ cd, progLookup g1.chordProgress m.chordId = some cd →
        ∀ l ∈ cd.pressedNotes,
          l ∈ uniqueLetters (allChordNotes g1 m.chordId))
    (hadv : (canAdvanceAndReset (processChordMatch g1 now m).1).1 = false)
    (hr : r = handleNoteInputWithOctave g0 now u uo tc)
    (hletters : letters = uniqueLetters (allChordNotes g1 m.chordId))
    (hcd2 : cd2 = chordDataRecorded (progLookup g1.chordProgress m.chordId)
      now m.letter) :
    ((∀ l, l ∈ letters ↔ l ∈ cd2.pressedNotes) ↔
        chordPressCompletes letters cd2 = true) ∧
    (chordPressCompletes letters cd2 = true →
        r.score = g0.score + 1 ∧
        r.notesDestroyed = g0.notesDestroyed + 1 ∧
        r.correctAnswers = g0.correctAnswers + 1 ∧
        (∀ nn ∈ r.movingNotes,
          ¬(nn.isChord = true ∧ nn.chordId = m.chordId)) ∧
        progLookup r.chordProgress m.chordId = Option.none ∧
        ((g0.pianoModeActive && isDualClefMode g0.currentClef) = true →
          (m.clef = Clef.bass →
            r.leftHandScore = g0.leftHandScore + 1) ∧
          (m.clef = Clef.treble →
            r.rightHandScore = g0.rightHandScore + 1))) ∧
    (chordPressCompletes letters cd2 = false →
        r.score = g0.score ∧ r.notesDestroyed = g0.notesDestroyed ∧
        r.correctAnswers = g0.correctAnswers ∧
        r.movingNotes = g0.movingNotes ∧ r.lives = g0.lives ∧
        r.level = g0.level) := by
  have hmm : (j, m) ∈ collectChord g1 n.chordId :=
    List.mem_of_find?_eq_some hmatch
  have hmem := collectChord_mem g1 n.chordId j m hmm
  have hml : m.letter ∈ letters := by
    rw [hletters]
    apply mem_uniqueLetters
    unfold allChordNotes
    rw [List.mem_filter]
    exact ⟨hmem.1, by simp [hmc]⟩
  have hpressed : ∀ l ∈ cd2.pressedNotes, l ∈ letters := by
    intro l hl
    rw [hcd2] at hl
    rcases recorded_pressed_sub _ _ _ _ hl with ⟨cd, hcd, hlcd⟩ | rfl
    · rw [hletters]; exact hsub cd hcd l hlcd
    · exact hml
  have hred : r = (if (processChordMatch g1 now m).2 = true then
      checkLevelProgression (processChordMatch g1 now m).1
      else (processChordMatch g1 now m).1) := by
    rw [hr]
    simp only [handleNoteInputWithOctave, hrun, hclean, hfind, hn,
      if_true, Bool.true_eq_false, if_false, ite_true, ite_false]
    rw [hmatch]
    simp [hmc]
  have hsnd : (processChordMatch g1 now m).2 =
      chordPressCompletes letters cd2 := by
    rw [processChordMatch_snd, hletters, hcd2]
  refine ⟨?_, ?_, ?_⟩
  · constructor
    · intro heq
      rw [chordPressCompletes_iff]
      intro l hll
      exact (heq l).mp hll
    · intro hc l
      rw [chordPressCompletes_iff] at hc
      exact ⟨fun hll => hc l hll, fun hlp => hpressed l hlp⟩
  · intro hc
    have hc2 : chordPressCompletes (uniqueLetters (allChordNotes g1
        m.chordId)) (chordDataRecorded (progLookup g1.chordProgress
        m.chordId) now m.letter) = true := by
      rw [← hletters, ← hcd2]; exact hc
    have hrr : r = (processChordMatch g1 now m).1 := by
      rw [hred, hsnd, hc, if_pos rfl,
        checkLevelProgression_no_advance _ hadv]
    obtain ⟨h1, h2, h3, _h4, _h5, h6, h7, h8⟩ :=
      processChordMatch_complete g1 now m hc2
    rw [hrr]
    refine ⟨?_, ?_, ?_, ?_, ?_, ?_⟩
    · rw [h1, ← hclean, cleanup_score]
    · rw [h2, ← hclean, cleanup_notesDestroyed]
    · rw [h3, ← hclean, cleanup_correctAnswers]
    · intro nn hnn
      rw [h6] at hnn
      have h9 := (List.mem_filter.mp hnn).2
      rintro ⟨hic, hcid⟩
      rw [hic, hcid] at h9
      simp at h9
    · exact h7
    · intro hpd
      have hpd1 : (g1.pianoModeActive && isDualClefMode g1.currentClef) =
          true := by
        rw [← hclean, cleanup_pianoModeActive, cleanup_currentClef]
        exact hpd
      obtain ⟨hl, hr2⟩ := h8 hpd1
      constructor
      · intro hclef
        rw [hl hclef, ← hclean, cleanup_leftHandScore]
      · intro hclef
        rw [hr2 hclef, ← hclean, cleanup_rightHandScore]
  · intro hc
    have hc2 : chordPressCompletes (uniqueLetters (allChordNotes g1
        m.chordId)) (chordDataRecorded (progLookup g1.chordProgress
        m.chordId) now m.letter) = false := by
      rw [← hletters, ← hcd2]; exact hc
    have hrr : r = (processChordMatch g1 now m).1 := by
      rw [hred, hsnd, hc]
      simp
    obtain ⟨h1, h2, h3, h4, h5, h6⟩ :=
      processChordMatch_incomplete g1 now m hc2
    rw [hrr]
    refine ⟨?_, ?_, ?_, ?_, ?_, ?_⟩
    · rw [h1, ← hclean, cleanup_score]
    · rw [h2, ← hclean, cleanup_notesDestroyed]
    · rw [h3, ← hclean, cleanup_correctAnswers]
    · rw [h4, ← hclean, cleanup_movingNotes]
    · rw [h5, ← hclean, cleanup_lives]
    · rw [h6, ← hclean, cleanup_level]


/-- C4 (amended): the wrong-note forgiveness window applies in exactly
two regimes — when a chord is active, and when no chord is active but
the previous resolved note was a chord (a melody note or empty screen
following a chord inherits the window).  In both regimes a wrong input
within the window of the last wrong-input event whose error was already
counted costs no life, every wrong input (counted or forgiven)
re-anchors the window at its own time, and a wrong input outside the
window is counted as a new life loss; in plain melody play (no chord
active, previous note melody) every wrong input costs a life with no
forgiveness. -/
theorem wrong_note_forgiveness_characterisation
    (g0 g1 r : GameState) (now : ℤ) (u : Letter) (uo : Option ℤ)
    (tc : Option Clef)
    (hrun : g0.gameRunning = true)
    (hclean : cleanupStaleChordProgress now g0 = g1)
    (hfind : findLeftmostMatchingNote g1 u tc = Option.none)
    (hr : r = handleNoteInputWithOctave g0 now u uo tc) :
    ((g0.movingNotes.any (fun n => n.isChord) = false ∧
        g0.previousNoteType = NoteType.melody) →
      r.lives = g0.lives - 1) ∧
    ((g0.movingNotes.any (fun n => n.isChord) = true ∧
        now - g0.chordWrongNoteWindow.lastWrongNoteTime <
          g0.chordWrongNoteWindow.windowDuration ∧
        g0.chordWrongNoteWindow.hasCountedError = true) →
      r.lives = g0.lives ∧
      r.chordWrongNoteWindow.lastWrongNoteTime = now ∧
      r.chordWrongNoteWindow.hasCountedError = true) ∧
    ((g0.movingNotes.any (fun n => n.isChord) = true ∧
        ¬(now - g0.chordWrongNoteWindow.lastWrongNoteTime <
          g0.chordWrongNoteWindow.windowDuration)) →
      r.lives = g0.lives - 1 ∧
      r.chordWrongNoteWindow.hasCountedError = true ∧
      r.chordWrongNoteWindow.lastWrongNoteTime = now) ∧
    ((g0.movingNotes.any (fun n => n.isChord) = false ∧
        g0.previousNoteType = NoteType.chord ∧
        now - g0.chordWrongNoteWindow.lastWrongNoteTime <
          g0.chordWrongNoteWindow.windowDuration ∧
        g0.chordWrongNoteWindow.hasCountedError = true) →
      r.lives = g0.lives ∧
      r.chordWrongNoteWindow.lastWrongNoteTime = now ∧
      r.chordWrongNoteWindow.hasCountedError = true) ∧
    ((g0.movingNotes.any (fun n => n.isChord) = false ∧
        g0.previousNoteType = NoteType.chord ∧
        ¬(now - g0.chordWrongNoteWindow.lastWrongNoteTime <
          g0.chordWrongNoteWindow.windowDuration)) →
      r.lives = g0.lives - 1 ∧
      r.chordWrongNoteWindow.hasCountedError = true ∧
      r.chordWrongNoteWindow.lastWrongNoteTime = now) := by
  have hred : r = processWrongInput g1 now := by
    rw [hr]; exact handler_wrong_path g0 g1 now u uo tc hrun hclean hfind
  have hmov : g1.movingNotes = g0.movingNotes := by
    rw [← hclean, cleanup_movingNotes]
  have hwin : g1.chordWrongNoteWindow = g0.chordWrongNoteWindow := by
    rw [← hclean, cleanup_window]
  have hprev : g1.previousNoteType = g0.previousNoteType := by
    rw [← hclean, cleanup_previousNoteType]
  have hlives : g1.lives = g0.lives := by rw [← hclean, cleanup_lives]
  refine ⟨?_, ?_, ?_, ?_, ?_⟩
  · rintro ⟨hany, hmel⟩
    have hfw : wrongNoteForgiveness g1 now =
        (true, g1.chordWrongNoteWindow, false) := by
      unfold wrongNoteForgiveness
      rw [hmov, hany, hprev, hmel]
      simp
    rw [hred, processWrongInput_lives, hfw]
    simp [hlives]
  · rintro ⟨hany, hwithin, hcounted⟩
    have hfw : wrongNoteForgiveness g1 now =
        (false,
         { lastWrongNoteTime := now,
           windowDuration := g0.chordWrongNoteWindow.windowDuration,
           hasCountedError := true }, true) := by
      unfold wrongNoteForgiveness
      rw [hmov, hany, hwin]
      simp [hwithin, hcounted]
    refine ⟨?_, ?_, ?_⟩
    · rw [hred, processWrongInput_lives, hfw]
      simp [hlives]
    · rw [hred, processWrongInput_window, hfw]
    · rw [hred, processWrongInput_window, hfw]
  · rintro ⟨hany, houtside⟩
    have hfw : wrongNoteForgiveness g1 now =
        (true,
         { lastWrongNoteTime := now,
           windowDuration := g0.chordWrongNoteWindow.windowDuration,
           hasCountedError := true }, true) := by
      unfold wrongNoteForgiveness
      rw [hmov, hany, hwin]
      simp [houtside]
    refine ⟨?_, ?_, ?_⟩
    · rw [hred, processWrongInput_lives, hfw]
      simp [hlives]
    · rw [hred, processWrongInput_window, hfw]
    · rw [hred, processWrongInput_window, hfw]
  · rintro ⟨hany, hpc, hwithin, hcounted⟩
    have hfw : wrongNoteForgiveness g1 now =
        (false,
         { lastWrongNoteTime := now,
           windowDuration := g0.chordWrongNoteWindow.windowDuration,
           hasCountedError := true }, false) := by
      unfold wrongNoteForgiveness
      rw [hmov, hany, hprev, hpc, hwin]
      simp [hwithin, hcounted]
    refine ⟨?_, ?_, ?_⟩
    · rw [hred, processWrongInput_lives, hfw]
      simp [hlives]
    · rw [hred, processWrongInput_window, hfw]
    · rw [hred, processWrongInput_window, hfw]
  · rintro ⟨hany, hpc, houtside⟩
    have hfw : wrongNoteForgiveness g1 now =
        (true,
         { lastWrongNoteTime := now,
           windowDuration := g0.chordWrongNoteWindow.windowDuration,
           hasCountedError := true }, false) := by
      unfold wrongNoteForgiveness
      rw [hmov, hany, hprev, hpc, hwin]
      simp [houtside]
    refine ⟨?_, ?_, ?_⟩
    · rw [hred, processWrongInput_lives, hfw]
      simp [hlives]
    · rw [hred, processWrongInput_window, hfw]
    · rw [hred, processWrongInput_window, hfw]

/-- C10: a pitch input arriving while the game runs with an empty
active-note set still takes the wrong-input path: nothing is destroyed,
no respawn is requested (`pendingSpawn` unchanged), yet whenever the
forgiveness decision counts the error a life is lost — reaching 0 lives
triggers Game Over with no note on screen. -/
theorem wrong_input_on_empty_screen
    (g0 g1 r : GameState) (now : ℤ) (u : Letter) (uo : Option ℤ)
    (tc : Option Clef)
    (hrun : g0.gameRunning = true)
    (hempty : g0.movingNotes = [])
    (hclean : cleanupStaleChordProgress now g0 = g1)
    (hcount : (wrongNoteForgiveness g1 now).1 = true)
    (hr : r = handleNoteInputWithOctave g0 now u uo tc) :
    r.movingNotes = [] ∧ r.score = g0.score ∧
    r.notesDestroyed = g0.notesDestroyed ∧
    r.pendingSpawn = g0.pendingSpawn ∧
    r.lives = g0.lives - 1 ∧
    (g0.lives ≤ 1 → r.gameRunning = false) ∧
    (1 < g0.lives → r.gameRunning = true) := by
  have hmov : g1.movingNotes = [] := by
    rw [← hclean, cleanup_movingNotes, hempty]
  have hfind : findLeftmostMatchingNote g1 u tc = Option.none := by
    unfold findLeftmostMatchingNote
    rw [hmov]
    rfl
  have hred : r = processWrongInput g1 now := by
    rw [hr]; exact handler_wrong_path g0 g1 now u uo tc hrun hclean hfind
  have hfd : findLeftmostDestroy
      { g1 with chordWrongNoteWindow := (wrongNoteForgiveness g1 now).2.1 }
      = Option.none := by
    unfold findLeftmostDestroy
    simp only [hmov]
    rfl
  have hdest : wrongDestroyStep
      { g1 with chordWrongNoteWindow := (wrongNoteForgiveness g1 now).2.1 }
      (wrongNoteForgiveness g1 now).2.2 =
      { g1 with chordWrongNoteWindow :=
          (wrongNoteForgiveness g1 now).2.1 } := by
    unfold wrongDestroyStep
    rw [hfd]
  have hexpand : processWrongInput g1 now =
      (let g2 := { g1 with chordWrongNoteWindow :=
          (wrongNoteForgiveness g1 now).2.1 }
       let g3 := { g2 with lives := g2.lives - 1 }
       if g3.lives ≤ 0 then { g3 with gameRunning := false } else g3) := by
    simp only [processWrongInput, hdest, hcount]
    simp
  rw [hred, hexpand]
  have hlives : g1.lives = g0.lives := by rw [← hclean, cleanup_lives]
  have hscore : g1.score = g0.score := by rw [← hclean, cleanup_score]
  have hnd : g1.notesDestroyed = g0.notesDestroyed := by
    rw [← hclean, cleanup_notesDestroyed]
  have hps : g1.pendingSpawn = g0.pendingSpawn := by
    rw [← hclean, cleanup_pendingSpawn]
  have hgr : g1.gameRunning = true := by
    rw [← hclean, cleanup_gameRunning]; exact hrun
  dsimp only
  split
  · next hcond =>
      refine ⟨hmov, hscore, hnd, hps, by rw [hlives], fun _ => rfl, ?_⟩
      intro hl
      rw [hlives] at hcond
      omega
  · next hcond =>
      refine ⟨hmov, hscore, hnd, hps, by rw [hlives], ?_, fun _ => hgr⟩
      intro hl
      rw [hlives] at hcond
      omega


theorem mkChordMovingNotes_speed (entries : List CatalogEntry)
    (baseX : ℚ) (now : ℤ) (s : ℚ) :
    ∀ n ∈ mkChordMovingNotes entries baseX now s, n.speed = s := by
  intro n hn
  unfold mkChordMovingNotes at hn
  rw [List.mem_map] at hn
  obtain ⟨p, _, rfl⟩ := hn
  rfl

/-- C3: a successful spawn at level L gives every spawned note the speed
of the level table and stores the level's spawn interval, and those
tables are exactly 0.8/1.4/1.8/2.2 and 2200/1600/1400/1200 for levels
1..4 with 2.2+(L-4)*0.4 and max(800, 1200-(L-4)*50) for L ≥ 5. -/
theorem spawn_speed_and_interval_curve
    (geo : Geometry) (now : ℤ) (pick : SpawnPick) (g : GameState)
    (hgate : now - g.lastNoteSpawn > g.noteSpawnRate)
    (hempty : g.movingNotes = []) :
    (∀ n ∈ (spawnNote geo now pick g).movingNotes,
        n.speed = baseSpeedForLevel g.level) ∧
    (spawnNote geo now pick g).noteSpawnRate = spawnRateForLevel g.level ∧
    baseSpeedForLevel 1 = 0.8 ∧ baseSpeedForLevel 2 = 1.4 ∧
    baseSpeedForLevel 3 = 1.8 ∧ baseSpeedForLevel 4 = 2.2 ∧
    (∀ L : ℤ, 5 ≤ L →
        baseSpeedForLevel L = 2.2 + ((L : ℚ) - 4) * 0.4) ∧
    spawnRateForLevel 1 = 2200 ∧ spawnRateForLevel 2 = 1600 ∧
    spawnRateForLevel 3 = 1400 ∧ spawnRateForLevel 4 = 1200 ∧
    (∀ L : ℤ, 5 ≤ L →
        spawnRateForLevel L = max 800 (1200 - (L - 4) * 50)) := by
  have hcan : canSpawnNote g 120 = true := by
    simp [canSpawnNote, hempty]
  have hmn : (spawnNote geo now pick g).movingNotes =
      (match pick with
       | .chord entries => mkChordMovingNotes entries
           (chordSpawnX geo g.currentClef) now (baseSpeedForLevel g.level)
       | .single e => [mkSingleMovingNote e
           (singleSpawnX geo g.currentClef e.clef) now
           (baseSpeedForLevel g.level)]) := by
    cases pick <;> simp [spawnNote, if_pos hgate, hcan, hempty]
  have hrate : (spawnNote geo now pick g).noteSpawnRate =
      spawnRateForLevel g.level := by
    cases pick <;> simp [spawnNote, if_pos hgate, hcan]
  refine ⟨?_, hrate, by norm_num [baseSpeedForLevel],
    by norm_num [baseSpeedForLevel], by norm_num [baseSpeedForLevel],
    by norm_num [baseSpeedForLevel], ?_,
    by norm_num [spawnRateForLevel], by norm_num [spawnRateForLevel],
    by norm_num [spawnRateForLevel], by norm_num [spawnRateForLevel], ?_⟩
  · intro n hn
    rw [hmn] at hn
    cases pick with
    | chord entries => exact mkChordMovingNotes_speed _ _ _ _ n hn
    | single e =>
        have : n = mkSingleMovingNote e
            (singleSpawnX geo g.currentClef e.clef) now
            (baseSpeedForLevel g.level) := by simpa using hn
        rw [this]
        rfl
  · intro L hL
    unfold baseSpeedForLevel
    rw [if_neg (by omega), if_neg (by omega), if_neg (by omega),
      if_neg (by omega)]
  · intro L hL
    unfold spawnRateForLevel
    rw [if_neg (by omega), if_neg (by omega), if_neg (by omega),
      if_neg (by omega)]

/-- C5 (amended): occupancy is a single global slot in every mode:
`canSpawnNote` allows a spawn exactly when the active-note set is empty,
and `spawnNote` leaves the state untouched whenever any note is active —
in dual-clef mode the two clefs are *not* filled independently. -/
theorem single_global_spawn_slot (g : GameState) (d : ℤ)
    (geo : Geometry) (now : ℤ) (pick : SpawnPick) :
    (canSpawnNote g d = true ↔ g.movingNotes = []) ∧
    (g.movingNotes ≠ [] → spawnNote geo now pick g = g) := by
  constructor
  · unfold canSpawnNote
    constructor
    · intro h
      by_contra hne
      have hpos : g.movingNotes.length > 0 := List.length_pos.mpr hne
      rw [if_pos hpos] at h
      exact Bool.noConfusion h
    · intro h
      rw [h]
      simp
  · intro hne
    have hcan : canSpawnNote g 120 = false := by
      unfold canSpawnNote
      rw [if_pos (List.length_pos.mpr hne)]
    unfold spawnNote
    rw [hcan]
    simp


/-- C2: a missed two-note chord is not destroyed atomically and costs one
life per member.  With both members of the E+G chord (chordId 7) past the
collision line, one `updateMovingNotes` tick removes only the member at
the crossing index — the sibling with the same chordId stays active (its
x not even advanced, skipped by the in-place splice during `forEach`) —
and decrements lives by 1; the next tick removes the sibling and takes a
second life: 2 lives for one missed chord, against the documented
atomic-destruction invariant. -/
theorem missed_chord_not_atomic :
    (updateMovingNotes fixGeo fixMissState).lives =
      fixMissState.lives - 1 ∧
    (updateMovingNotes fixGeo fixMissState).movingNotes = [fixNoteG] ∧
    fixNoteG.isChord = true ∧ fixNoteG.chordId = fixNoteE.chordId ∧
    progLookup (updateMovingNotes fixGeo fixMissState).chordProgress
      (some 7) = Option.none ∧
    (updateMovingNotes fixGeo (updateMovingNotes fixGeo
      fixMissState)).lives = fixMissState.lives - 2 ∧
    (updateMovingNotes fixGeo (updateMovingNotes fixGeo
      fixMissState)).movingNotes = [] := by
  have h1 : updateMovingNotes fixGeo fixMissState = fixState1 := by
    norm_num +decide [updateMovingNotes, updateMovingNotesLoop,
      greenLineCollisionX, isDualClefMode, progLookup, progDelete,
      forceSpawnNoteWithTransitionDelay, fixGeo, fixMissState, fixBase,
      fixNoteE, fixNoteG, fixWindow, fixSettings, fixState1]
  have h2 : updateMovingNotes fixGeo fixState1 =
      { fixState1 with
          movingNotes := [], lives := 1, pendingSpawn := some 150 } := by
    norm_num +decide [updateMovingNotes, updateMovingNotesLoop,
      greenLineCollisionX, isDualClefMode, progLookup, progDelete,
      forceSpawnNoteWithTransitionDelay, fixGeo, fixState1, fixBase,
      fixNoteE, fixNoteG, fixWindow, fixSettings]
  rw [h1, h2]
  exact ⟨by decide, rfl, rfl, rfl, rfl, by decide, rfl⟩

/-- C4 counterexample, two parts.  (i) In plain melody play (no chord
active, previous note melody) two wrong inputs only 100 ms apart cost
two lives — the 150 ms forgiveness window does not hold for every game
mode and note type.  (ii) In the inherited-window regime (previous
resolved note a chord, screen empty during the transition gap) three
wrong inputs at t = 1000, 1100 and 1200 cost exactly one life in total,
although the third arrives 200 ms after its counted predecessor
(t = 1000) and the claim would count it as a new life loss: the code
re-anchors the window at every wrong-input event (t = 1100 included,
though it was forgiven), so the window slides with the last wrong event
rather than being measured from the counted predecessor. -/
theorem wrong_note_window_not_as_claimed :
    (handleNoteInputWithOctave (handleNoteInputWithOctave fixMelodyState
        1000 Letter.D Option.none Option.none) 1100 Letter.D Option.none
        Option.none).lives = fixMelodyState.lives - 2 ∧
    (handleNoteInputWithOctave (handleNoteInputWithOctave
        (handleNoteInputWithOctave fixGapState 1000 Letter.D Option.none
          Option.none) 1100 Letter.D Option.none Option.none) 1200
        Letter.D Option.none Option.none).lives = fixGapState.lives - 1 ∧
    (handleNoteInputWithOctave (handleNoteInputWithOctave
        (handleNoteInputWithOctave fixGapState 1000 Letter.D Option.none
          Option.none) 1100 Letter.D Option.none Option.none) 1200
        Letter.D Option.none
        Option.none).chordWrongNoteWindow.lastWrongNoteTime = 1200 := by
  decide

/-- C5 counterexample: with one active treble note in grand mode the bass
slot is empty under the spec's independent-slot reading, yet
`canSpawnNote` refuses and `spawnNote` ignores a bass pick even though
its interval has long elapsed — the per-clef slots are not independent. -/
theorem clef_slots_not_independent :
    canSpawnNote fixGrandOneTreble 120 = false ∧
    specClefSlotFree fixGrandOneTreble Clef.bass = true ∧
    spawnNote fixGeo 10000
      (SpawnPick.single (mkEntry Clef.bass Letter.C 3))
      fixGrandOneTreble = fixGrandOneTreble := by decide

/-- C1 witness: pressing E on the E+G chord whose G was recorded 100 ms
earlier completes the chord: score +1 and the progress entry is gone. -/
theorem chord_completion_iff_full_letter_set_witness :
    (handleNoteInputWithOctave fixChordState 1000 Letter.E Option.none
        Option.none).score = fixChordState.score + 1 ∧
    progLookup (handleNoteInputWithOctave fixChordState 1000 Letter.E
        Option.none Option.none).chordProgress fixNoteE.chordId =
      Option.none := by
  have h := chord_completion_iff_full_letter_set fixChordState
    (cleanupStaleChordProgress 1000 fixChordState) 1000 Letter.E
    Option.none Option.none 0 0 fixNoteE fixNoteE
    (handleNoteInputWithOctave fixChordState 1000 Letter.E Option.none
      Option.none)
    (uniqueLetters (allChordNotes (cleanupStaleChordProgress 1000
      fixChordState) fixNoteE.chordId))
    (chordDataRecorded (progLookup (cleanupStaleChordProgress 1000
      fixChordState).chordProgress fixNoteE.chordId) 1000 fixNoteE.letter)
    rfl rfl (by decide) rfl (by decide) rfl
    (by
      intro cd hcd l hl
      have he : progLookup (cleanupStaleChordProgress 1000
          fixChordState).chordProgress fixNoteE.chordId =
          some { pressedNotes := [Letter.G],
                 timestamps := [(Letter.G, 900)],
                 firstPressTime := 900 } := by decide
      rw [he] at hcd
      cases hcd
      have hg : l = Letter.G := by simpa using hl
      subst hg
      decide)
    (by decide) rfl rfl rfl
  have hcomp : chordPressCompletes
      (uniqueLetters (allChordNotes (cleanupStaleChordProgress 1000
        fixChordState) fixNoteE.chordId))
      (chordDataRecorded (progLookup (cleanupStaleChordProgress 1000
        fixChordState).chordProgress fixNoteE.chordId) 1000
        fixNoteE.letter) = true := by decide
  obtain ⟨-, h2, -⟩ := h
  obtain ⟨hs, -, -, -, hp, -⟩ := h2 hcomp
  exact ⟨hs, hp⟩

/-- C3 witness: a level-7 spawn stores the level-7 interval. -/
theorem spawn_speed_and_interval_curve_witness :
    (spawnNote fixGeo 5000
        (SpawnPick.single (mkEntry Clef.treble Letter.E 4))
        fixLevel7).noteSpawnRate = spawnRateForLevel fixLevel7.level :=
  (spawn_speed_and_interval_curve fixGeo 5000
    (SpawnPick.single (mkEntry Clef.treble Letter.E 4)) fixLevel7
    (by decide) rfl).2.1

/-- C4 witness: a wrong input in plain melody play costs exactly one
life, while in the inherited-window regime (previous note a chord,
already-counted wrong event 50 ms earlier) a wrong input costs none. -/
theorem wrong_note_forgiveness_characterisation_witness :
    (handleNoteInputWithOctave fixMelodyState 1000 Letter.D Option.none
        Option.none).lives = fixMelodyState.lives - 1 ∧
    (handleNoteInputWithOctave fixGapCounted 1000 Letter.D Option.none
        Option.none).lives = fixGapCounted.lives :=
  ⟨(wrong_note_forgiveness_characterisation fixMelodyState
      (cleanupStaleChordProgress 1000 fixMelodyState)
      (handleNoteInputWithOctave fixMelodyState 1000 Letter.D Option.none
        Option.none) 1000 Letter.D Option.none Option.none rfl rfl
      (by decide) rfl).1 ⟨by decide, rfl⟩,
   ((wrong_note_forgiveness_characterisation fixGapCounted
      (cleanupStaleChordProgress 1000 fixGapCounted)
      (handleNoteInputWithOctave fixGapCounted 1000 Letter.D Option.none
        Option.none) 1000 Letter.D Option.none Option.none rfl rfl
      (by decide) rfl).2.2.2.1 ⟨by decide, rfl, by decide, rfl⟩).1⟩

/-- C5 witness: the blocked bass spawn of the grand-mode state with one
treble note leaves the state unchanged. -/
theorem single_global_spawn_slot_witness :
    spawnNote fixGeo 10000
      (SpawnPick.single (mkEntry Clef.bass Letter.C 3))
      fixGrandOneTreble = fixGrandOneTreble :=
  (single_global_spawn_slot fixGrandOneTreble 120 fixGeo 10000
    (SpawnPick.single (mkEntry Clef.bass Letter.C 3))).2 (by decide)

/-- C10 witness: a wrong input with no note on screen costs a life. -/
theorem wrong_input_on_empty_screen_witness :
    (handleNoteInputWithOctave fixBase 1000 Letter.C Option.none
        Option.none).lives = fixBase.lives - 1 :=
  (wrong_input_on_empty_screen fixBase
    (cleanupStaleChordProgress 1000 fixBase)
    (handleNoteInputWithOctave fixBase 1000 Letter.C Option.none
      Option.none) 1000 Letter.C Option.none Option.none rfl rfl rfl
    (by decide) rfl).2.2.2.2.1

end StaveGame
